import Mathlib

/-!
# Verification of the Advanced Image Downloader queue/scan/resolver core

A shallow embedding, in Lean 4, of the parts of the extension's source that
the specification's testable properties talk about:

* `src/lib/queue-manager.js` — `IntelligentQueueManager`: `addToQueue`,
  `sortQueueByPriority`, `processQueue`, `startDownload`,
  `handleDownloadError`, `scheduleRetry`, `pauseQueue`, `resumeQueue`,
  `pauseAllQueues`, `resumeAllQueues`, `handleNetworkChange`,
  `persistQueues`, `loadPersistedQueues`.
* `src/content/scanner.js` — `ContentScanner`: `generateImageKey`,
  `removeDuplicateImages`, `passesFilters`, `passesFileTypeFilter`,
  `extractCanvasImages`, `extractVideoFrames`.
* `src/content/conten.css` (embedded script) — `AdvancedImageExtractor`:
  `handleRemoteUrl` and its CORS-proxy fallback chain.

JavaScript machine integers are modelled as `Nat` (all quantities involved —
priorities, timestamps, counts, sizes — are nonnegative and far below 2^53,
where JS numbers are exact integers).  Mutation of `this`-state is modelled by
explicit state passing; a JS `throw` is modelled by `Except` together with the
state as mutated up to the throwing statement.  Asynchronous timers
(`setTimeout`/`setInterval` callbacks) are modelled as explicit step
functions applied when the timer fires.
-/

namespace Spec2Proof

/-- JavaScript `a || b` for an optional numeric field: `undefined` and `0` are
falsy, any other number is returned unchanged. -/
def jsOrNat (a : Option Nat) (b : Nat) : Nat :=
  match a with
  | none => b
  | some n => if n = 0 then b else n

/-- JavaScript `a || b` for an optional string field: `undefined` and the empty
string are falsy. -/
def jsOrStr (a : Option String) (b : String) : String :=
  match a with
  | none => b
  | some s => if s = "" then b else s

/-! ## Queue manager data model (src/lib/queue-manager.js) -/

/-- A queue item as built by `addToQueue` (queue-manager.js, the
`processedItems.map` at L122-139).  Fields not needed by any claim
(`startedAt`, `completedAt`, the per-item `progress` record) are omitted. -/
structure QItem where
  id : String
  queueId : String
  status : String
  priority : Nat
  attempts : Nat
  addedAt : Nat
  error : Option String
  estimatedSize : Nat
  deriving Repr, DecidableEq

/-- Caller-supplied raw item passed to `addToQueue`; `priority` and
`estimatedSize` may be absent (JS `undefined`). -/
structure NewItem where
  priority : Option Nat
  estimatedSize : Option Nat
  deriving Repr, DecidableEq

/-- The aggregate `progress` counters of a queue (queue-manager.js L82-88).
The float-valued `percentage` is excluded from the model. -/
structure QProgress where
  total : Nat
  completed : Nat
  failed : Nat
  inProgress : Nat
  deriving Repr, DecidableEq

/-- A queue (queue-manager.js L77-101).  `totalSize` is
`statistics.totalSize`; `failedCount` is `failedItems.length`;
the option fields `concurrentLimit`, `retryAttempts`, `retryDelay` and
`defaultPriority` (= `options.priority`) are inlined. -/
structure Queue where
  id : String
  items : List QItem
  status : String
  pauseReason : Option String
  progress : QProgress
  totalSize : Nat
  activeDownloads : List String
  failedCount : Nat
  retryQueue : List String
  concurrentLimit : Nat
  retryAttempts : Nat
  retryDelay : Nat
  defaultPriority : Nat
  deriving Repr, DecidableEq

/-- The comparator of `sortQueueByPriority` (queue-manager.js L560-565), read
as the relation "`a` is ordered no later than `b`": the JS comparator returns
`b.priority - a.priority` when the priorities differ (nonpositive exactly when
`b.priority < a.priority`, priorities being distinct), and
`a.addedAt - b.addedAt` otherwise (nonpositive exactly when
`a.addedAt ≤ b.addedAt`). -/
def sortRel (a b : QItem) : Prop :=
  b.priority < a.priority ∨ (a.priority = b.priority ∧ a.addedAt ≤ b.addedAt)

instance : DecidableRel sortRel := fun a b =>
  inferInstanceAs (Decidable (_ ∨ _))

/-- `sortQueueByPriority` (queue-manager.js L559-566).  JS `Array.prototype.sort`
is a stable sort w.r.t. the comparator; `List.insertionSort` with the
comparator's non-strict relation is also stable, so the two agree on every
input. -/
def sortQueueByPriority (items : List QItem) : List QItem :=
  items.insertionSort sortRel

deriving instance DecidableEq for Except

/-- One element of the `processedItems.map` inside `addToQueue`
(queue-manager.js L122-139): fresh id from the queue id, `Date.now()` and the
index; `status = 'pending'`; `priority = item.priority || queue.options.priority`;
`attempts = 0`; `addedAt = Date.now()`. -/
def mkQueueItem (qid : String) (now : Nat) (defPriority : Nat) (idx : Nat)
    (it : NewItem) : QItem :=
  { id := qid ++ "_item_" ++ toString now ++ "_" ++ toString idx
    queueId := qid
    status := "pending"
    priority := jsOrNat it.priority defPriority
    attempts := 0
    addedAt := now
    error := none
    estimatedSize := it.estimatedSize.getD 0 }

/-- The full `processedItems.map` of `addToQueue` (queue-manager.js
L122-139): normalize every submitted item, indexed in submission order. -/
def mkQueueItems (qid : String) (now : Nat) (defPriority : Nat)
    (items : List NewItem) : List QItem :=
  items.enum.map (fun p => mkQueueItem qid now defPriority p.1 p.2)

/-- `addToQueue` (queue-manager.js L114-159).  `Date.now()` is passed in as
`now` and the manager's `settings.maxQueueSize` as `maxQueueSize`; the
manager's `this.queues` map is threaded explicitly as a list keyed by `id`.
A JS `throw` is an `Except.error` paired with the state as mutated so far;
in the source both throws (`Queue not found` at L117, `Queue size limit
exceeded` at L143) happen before any mutation of the queue, so the state
returned on either error is the input state.  On success the new items are
appended, `progress.total` and `statistics.totalSize` are bumped, and the
whole item list is re-sorted by `sortQueueByPriority` (L147-152). -/
def addToQueue (maxQueueSize : Nat) (now : Nat) (queues : List Queue)
    (qid : String) (items : List NewItem) :
    List Queue × Except String (List String) :=
  match queues.find? (fun q => q.id == qid) with
  | none => (queues, .error ("Queue " ++ qid ++ " not found"))
  | some q =>
    if q.items.length + (mkQueueItems qid now q.defaultPriority items).length
        > maxQueueSize then
      (queues, .error "Queue size limit exceeded")
    else
      (queues.map (fun r =>
        if r.id == qid then
          { q with
            items := sortQueueByPriority
              (q.items ++ mkQueueItems qid now q.defaultPriority items)
            progress := { q.progress with
              total := q.progress.total
                + (mkQueueItems qid now q.defaultPriority items).length }
            totalSize := q.totalSize
              + ((mkQueueItems qid now q.defaultPriority items).map
                  (fun it => it.estimatedSize)).sum }
        else r),
       .ok ((mkQueueItems qid now q.defaultPriority items).map (fun it => it.id)))

/-- The priority-only comparator used inside `processQueue`
(queue-manager.js L291, `(a, b) => b.priority - a.priority`), read as
"`a` is ordered no later than `b`". -/
def prioRel (a b : QItem) : Prop := b.priority ≤ a.priority

instance : DecidableRel prioRel := fun a b =>
  inferInstanceAs (Decidable (_ ≤ _))

/-- The pending-item selection of `processQueue` (queue-manager.js L289-292):
filter the `pending` items, sort them by priority descending, and keep the
first `availableSlots`.  `startDownload` is then called on the selected items
in list order (L303-305), so this list is the execution start order. -/
def pendingSelection (q : Queue) (availableSlots : Nat) : List QItem :=
  ((q.items.filter (fun it => it.status == "pending")).insertionSort prioRel).take
    availableSlots

/-! ## Retry lifecycle (queue-manager.js `startDownload`, `handleDownloadError`,
`scheduleRetry`) -/

/-- The retry backoff delay computed by `scheduleRetry` (queue-manager.js
L458): `queue.options.retryDelay * Math.pow(2, item.attempts - 1)`.
`scheduleRetry` is only reached from `handleDownloadError` after
`startDownload` has incremented `attempts`, so `attempts ≥ 1` there and the
`Nat` subtraction agrees with JS. -/
def scheduleRetryDelay (retryDelay attempts : Nat) : Nat :=
  retryDelay * 2 ^ (attempts - 1)

/-- The body of the `setTimeout` callback installed by `scheduleRetry`
(queue-manager.js L460-468): when the backoff delay fires on a queue that is
still `running`, the item's status is reset to `pending` and its error is
cleared; on a non-running queue the callback does nothing to the item. -/
def retryFire (queueStatus : String) (it : QItem) : QItem :=
  if queueStatus == "running" then { it with status := "pending", error := none }
  else it

/-- Accumulated observations of one item's lifecycle when every execution
attempt fails: the final item, the number of failures
(`handleDownloadError` entries, = increments of `queue.progress.failed` and
pushes onto `queue.failedItems`), and the number of retries actually
scheduled and fired (`scheduleRetry` calls whose timer reset the item to
`pending` on the running queue). -/
structure FailRunResult where
  item : QItem
  failures : Nat
  retries : Nat
  deriving Repr, DecidableEq

/-- One-item simulation of the queue manager's execution loop when
`executeDownload` fails on every attempt and the queue stays `running`:

* `startDownload` (L312-340): `item.status = 'downloading'`,
  `item.attempts++`, then the download is executed and fails;
* `handleDownloadError` (L420-455): `item.status = 'failed'`,
  `item.error = message`, `queue.progress.failed++`,
  `queue.failedItems.push(...)`, then
  `if (item.attempts < queue.options.retryAttempts) scheduleRetry(item, queue)`;
* the `scheduleRetry` timer (L460-468) later resets the item to `pending`
  (queue still `running`), after which `processQueue` starts it again.

`fuel` bounds the recursion; `failingRun` below supplies enough fuel that the
fuel never runs out. -/
def failingRunAux (retryAttempts : Nat) :
    Nat → QItem → Nat → Nat → FailRunResult
  | 0, it, failures, retries => ⟨it, failures, retries⟩
  | fuel + 1, it, failures, retries =>
    let it1 : QItem := { it with status := "downloading", attempts := it.attempts + 1 }
    let it2 : QItem := { it1 with status := "failed", error := some "download failed" }
    if it2.attempts < retryAttempts then
      failingRunAux retryAttempts fuel (retryFire "running" it2)
        (failures + 1) (retries + 1)
    else
      ⟨it2, failures + 1, retries⟩

/-- Run the always-failing lifecycle of a single item to completion. -/
def failingRun (retryAttempts : Nat) (it : QItem) : FailRunResult :=
  failingRunAux retryAttempts (retryAttempts + 1) it 0 0

/-- A fresh queue item as `addToQueue` creates it (`attempts = 0`,
`status = 'pending'`), used as the starting point of retry-cap scenarios. -/
def freshItem : QItem :=
  { id := "q_item_0_0", queueId := "q", status := "pending", priority := 1
    attempts := 0, addedAt := 0, error := none, estimatedSize := 0 }

/-! ## Pause/resume state machine (queue-manager.js L23-38, L182-222,
L569-604) -/

/-- The manager state relevant to pause/resume bookkeeping, together with the
browser environment facts the event listeners react to: `navigator.onLine`
and the `autoResume` setting. -/
structure MState where
  queues : List Queue
  pausedQueues : List String
  autoResume : Bool
  online : Bool
  deriving Repr, DecidableEq

/-- JS `Set.add`: no-op when the element is already present, preserves
insertion order otherwise. -/
def setAdd (x : String) (s : List String) : List String :=
  if x ∈ s then s else s ++ [x]

/-- `pauseQueue` (queue-manager.js L182-198): sets the queue's status to
`paused`, *overwrites* `pauseReason` with the new reason (the source keeps a
single reason field, not a set), and records the id in `pausedQueues`.
Cancelling the active downloads (L193-195) calls `cancelDownload`, which in
the source only logs and does not change the modelled state.  An unknown id
throws in the source; the only callers below iterate over existing ids, for
which this case is unreachable, so it is modelled as a no-op. -/
def mPauseQueue (st : MState) (qid reason : String) : MState :=
  match st.queues.find? (fun q => q.id == qid) with
  | none => st
  | some _ =>
    { st with
      queues := st.queues.map (fun r =>
        if r.id == qid then { r with status := "paused", pauseReason := some reason }
        else r)
      pausedQueues := setAdd qid st.pausedQueues }

/-- `resumeQueue` (queue-manager.js L200-222): a no-op unless the queue's
status is exactly `paused`; otherwise sets status to `running`
unconditionally — without consulting the stored `pauseReason` or the current
network state — deletes the reason and the id from `pausedQueues`, and resets
interrupted `downloading` items to `pending`. -/
def mResumeQueue (st : MState) (qid : String) : MState :=
  match st.queues.find? (fun q => q.id == qid) with
  | none => st
  | some q =>
    if q.status ≠ "paused" then st
    else
      { st with
        queues := st.queues.map (fun r =>
          if r.id == qid then
            { r with
              status := "running"
              pauseReason := none
              items := r.items.map (fun it =>
                if it.status == "downloading" then { it with status := "pending" }
                else it) }
          else r)
        pausedQueues := st.pausedQueues.filter (fun x => x ≠ qid) }

/-- `pauseAllQueues(reason)` (queue-manager.js L569-575): pauses every queue
whose id is not already in `pausedQueues` — so a queue already paused for an
earlier reason keeps that earlier reason. -/
def pauseAllQueues (st : MState) (reason : String) : MState :=
  (st.queues.map (fun q => q.id)).foldl
    (fun s qid => if qid ∈ s.pausedQueues then s else mPauseQueue s qid reason)
    st

/-- `resumeAllQueues(reason)` (queue-manager.js L577-581): resumes **every**
queue in `pausedQueues`; the `reason` parameter is accepted but never used by
the source. -/
def resumeAllQueues (st : MState) (_reason : String) : MState :=
  st.pausedQueues.foldl (fun s qid => mResumeQueue s qid) st

/-- `handleNetworkChange` (queue-manager.js L594-604), with the `online` field
tracking `navigator.onLine`: going offline pauses all queues with reason
`network`; coming back online resumes all paused queues when `autoResume` is
set. -/
def handleNetworkChange (st : MState) (isOnline : Bool) : MState :=
  let st' := { st with online := isOnline }
  if isOnline then
    if st'.autoResume then resumeAllQueues st' "network" else st'
  else
    pauseAllQueues st' "network"

/-- The `visibilitychange` listener (queue-manager.js L31-37): hidden pauses
all queues with reason `visibility`, visible resumes all paused queues. -/
def handleVisibilityChange (st : MState) (hidden : Bool) : MState :=
  if hidden then pauseAllQueues st "visibility"
  else resumeAllQueues st "visibility"

/-- A single running queue with no items, as `createQueue` + `startQueue`
leave it. -/
def runningQueue : Queue :=
  { id := "q", items := [], status := "running", pauseReason := none
    progress := ⟨0, 0, 0, 0⟩, totalSize := 0, activeDownloads := []
    failedCount := 0, retryQueue := [], concurrentLimit := 3
    retryAttempts := 3, retryDelay := 1000, defaultPriority := 3 }

/-- The multi-reason pause scenario: a running queue on a live network, then
the network drops (pause reason `network`), then the tab is hidden (a second
pausing reason, `visibility`), then the tab is shown again — while the
network is still down. -/
def multiReasonScenario : MState :=
  handleVisibilityChange
    (handleVisibilityChange
      (handleNetworkChange
        { queues := [runningQueue], pausedQueues := [], autoResume := true
          online := true }
        false)
      true)
    false

/-! ## Persistence round trip (queue-manager.js L607-653) -/

/-- `persistQueues` (queue-manager.js L639-653): each queue is snapshotted
as-is except that `activeDownloads` is written out empty. -/
def persistQueues (qs : List Queue) : List Queue :=
  qs.map (fun q => { q with activeDownloads := [] })

/-- The per-queue restore step of `loadPersistedQueues` (queue-manager.js
L613-629): the saved record is rebuilt with a fresh empty `activeDownloads`
set, status forced to `paused` ("Always start paused after restore"), and
every `downloading` item reset to `pending`.  The restored queue's id is also
added to `pausedQueues`. -/
def restoreQueue (q : Queue) : Queue :=
  { q with
    activeDownloads := []
    status := "paused"
    items := q.items.map (fun it =>
      if it.status == "downloading" then { it with status := "pending" }
      else it) }

/-- `loadPersistedQueues` applied to a saved snapshot list. -/
def loadPersistedQueues (saved : List Queue) : List Queue :=
  saved.map restoreQueue

/-- Write the live queues through `persistQueues` and read them back through
`loadPersistedQueues`, simulating a restart. -/
def persistenceRoundTrip (qs : List Queue) : List Queue :=
  loadPersistedQueues (persistQueues qs)

/-! ## Content scanner (src/content/scanner.js) -/

/-- A discovered image candidate as the scanner builds it: `url`, the
reported `width`/`height`, the extraction `type` tag (absent for plain
`<img>` results before `determineImageType` runs), and the size estimate. -/
structure ScanImage where
  url : String
  width : Nat
  height : Nat
  type : Option String
  estimatedSize : Nat
  deriving Repr, DecidableEq

/-- The `fileTypes` allow-list of the scanner settings
(`getDefaultSettings`, scanner.js L666-677). -/
structure FileTypes where
  jpg : Bool
  png : Bool
  webp : Bool
  gif : Bool
  svg : Bool
  blob : Bool
  deriving Repr, DecidableEq

/-- The scanner settings used by the filter pipeline. -/
structure ScanSettings where
  fileTypes : FileTypes
  minWidth : Nat
  minHeight : Nat
  deriving Repr, DecidableEq

/-- The character of one decimal digit (only applied to values `< 10`). -/
def digitChar : Nat → Char
  | 0 => '0' | 1 => '1' | 2 => '2' | 3 => '3' | 4 => '4'
  | 5 => '5' | 6 => '6' | 7 => '7' | 8 => '8' | _ => '9'

/-- Decimal digit characters of a positive number, most significant first;
`fuel` is a structural-recursion bound (any `fuel ≥ n` is enough). -/
def natStrAux : Nat → Nat → List Char
  | 0, _ => []
  | fuel + 1, n =>
    if n = 0 then [] else natStrAux fuel (n / 10) ++ [digitChar (n % 10)]

/-- The decimal numeral of a `Nat`, modelling JavaScript number-to-string
interpolation (`${imageData.width}`) for the integer values at hand:
`natStr 0 = "0"`, otherwise the base-10 digits most significant first. -/
def natStr (n : Nat) : String :=
  if n = 0 then "0" else ⟨natStrAux n n⟩

/-- The `url.split('?')[0]` normalization inside `generateImageKey`
(scanner.js L684): the prefix of the URL before the first `?`. -/
def normalizeKeyUrl (url : String) : String :=
  ⟨url.data.takeWhile (fun c => c != '?')⟩

/-- `generateImageKey` (scanner.js L682-686): the dedup key is the
query-stripped URL joined with the reported dimensions,
`` `${url}_${width}x${height}` ``. -/
def generateImageKey (img : ScanImage) : String :=
  normalizeKeyUrl img.url ++ "_" ++ natStr img.width ++ "x" ++ natStr img.height

/-- `removeDuplicateImages` (scanner.js L887-895), with the `seen` key set
threaded explicitly: keep an image only when its key has not been seen. -/
def removeDupAux (seen : List String) : List ScanImage → List ScanImage
  | [] => []
  | img :: rest =>
    if generateImageKey img ∈ seen then removeDupAux seen rest
    else img :: removeDupAux (generateImageKey img :: seen) rest

/-- `removeDuplicateImages` run with an initially empty `seen` set. -/
def removeDuplicateImages (images : List ScanImage) : List ScanImage :=
  removeDupAux [] images

/-- `passesFileTypeFilter` (scanner.js L630-652).  The source computes
`imageData.type || this.determineImageType(imageData.url)`;
`determineImageType` inspects the URL's extension through browser URL
parsing, so it is passed in as a function parameter `determine`. -/
def passesFileTypeFilter (determine : String → String) (ft : FileTypes)
    (img : ScanImage) : Bool :=
  match jsOrStr img.type (determine img.url) with
  | "jpg" | "jpeg" => ft.jpg
  | "png" => ft.png
  | "webp" => ft.webp
  | "gif" => ft.gif
  | "svg" => ft.svg
  | "canvas" | "blob" | "video-frame" => ft.blob
  | _ => true

/-- `passesFilters` (scanner.js L611-628), with the mutable `scannedImages`
map threaded as the list of keys already registered.  The checks run in
source order — file-type allow-list, then the minimum-dimension test
`width < minWidth || height < minHeight` (rejection on strict `<`, so the
boundary itself is accepted), then URL validity, then the duplicate check —
short-circuiting on the first failure; on success the image's key is
registered.  `isValidImageUrl` (scanner.js L690-720) is built on browser URL
parsing and regular expressions, so it is passed in as a function
parameter. -/
def passesFilters (determine : String → String) (isValidImageUrl : String → Bool)
    (s : ScanSettings) (scanned : List String) (img : ScanImage) :
    Bool × List String :=
  if ¬ passesFileTypeFilter determine s.fileTypes img then (false, scanned)
  else if img.width < s.minWidth ∨ img.height < s.minHeight then (false, scanned)
  else if ¬ isValidImageUrl img.url then (false, scanned)
  else if generateImageKey img ∈ scanned then (false, scanned)
  else (true, generateImageKey img :: scanned)

/-- A `<canvas>` element as seen by `extractCanvasImages`: its pixel
dimensions and the data URL produced by `toDataURL('image/png')`. -/
structure CanvasEl where
  width : Nat
  height : Nat
  dataUrl : String
  deriving Repr, DecidableEq

/-- A `<video>` element as seen by `extractVideoFrames`: its intrinsic frame
dimensions and the data URL of the frame drawn onto a canvas. -/
structure VideoEl where
  videoWidth : Nat
  videoHeight : Nat
  frameDataUrl : String
  deriving Repr, DecidableEq

/-- `estimateCanvasSize` (scanner.js L844-846): `width * height * 4` (RGBA). -/
def estimateCanvasSize (width height : Nat) : Nat :=
  width * height * 4

/-- The canvas-element loop of `extractCanvasImages` (scanner.js L425-465):
nothing is emitted unless `settings.fileTypes.blob` is on, and a canvas is
emitted only when `canvas.width > minWidth && canvas.height > minHeight` —
a **strict** comparison on both axes, unlike `passesFilters`.  (The source
then appends background-blob and video-frame extractions to the same array;
those are modelled separately.) -/
def extractCanvasImages (s : ScanSettings) (canvases : List CanvasEl) :
    List ScanImage :=
  if ¬ s.fileTypes.blob then []
  else
    (canvases.filter (fun c => s.minWidth < c.width ∧ s.minHeight < c.height)).map
      (fun c =>
        { url := c.dataUrl, width := c.width, height := c.height
          type := some "canvas"
          estimatedSize := estimateCanvasSize c.width c.height })

/-- `extractVideoFrames` (scanner.js L508-544): a video frame is emitted only
when `video.videoWidth > minWidth && video.videoHeight > minHeight` — again a
strict comparison on both axes. -/
def extractVideoFrames (s : ScanSettings) (videos : List VideoEl) :
    List ScanImage :=
  (videos.filter (fun v => s.minWidth < v.videoWidth ∧ s.minHeight < v.videoHeight)).map
    (fun v =>
      { url := v.frameDataUrl, width := v.videoWidth, height := v.videoHeight
        type := some "video-frame"
        estimatedSize := estimateCanvasSize v.videoWidth v.videoHeight })

/-! ## Image source resolver (src/content/conten.css, `AdvancedImageExtractor`) -/

/-- The payload of a successful fetch: the blob's MIME type and byte size. -/
structure Blob where
  mimeType : String
  size : Nat
  deriving Repr, DecidableEq

/-- The descriptor `handleRemoteUrl` resolves to.  `type` is one of
`remote-direct`, `remote-proxy`, `remote-fallback`. -/
structure Descriptor where
  url : String
  type : String
  downloadUrl : String
  proxiedUrl : Option String
  error : Option String
  deriving Repr, DecidableEq

/-- The hard-coded `corsProxyUrls` list of `AdvancedImageExtractor`
(conten.css L455-461). -/
def corsProxyUrls : List String :=
  [ "https://api.allorigins.win/raw?url="
  , "https://cors-anywhere.herokuapp.com/"
  , "https://proxy.cors.sh/" ]

/-- The proxy loop of `handleRemoteUrl` (conten.css L892-915): try each proxy
endpoint in list order against the fetch oracle; the first success wins, a
failure falls through to the next proxy, and an exhausted list produces the
`remote-fallback` descriptor whose `downloadUrl` is the **original** URL
(conten.css L918-923).  `fetch` models `fetchWithTimeout` — `none` is any
thrown failure (network error, CORS rejection, timeout); `createObjectURL`
models `URL.createObjectURL`; `encode` models `encodeURIComponent`. -/
def tryProxies (fetch : String → Option Blob) (createObjectURL : Blob → String)
    (encode : String → String) (url : String) (lastError : Option String) :
    List String → Descriptor
  | [] =>
    { url := url, type := "remote-fallback", downloadUrl := url
      proxiedUrl := none, error := lastError }
  | proxyUrl :: rest =>
    match fetch (proxyUrl ++ encode url) with
    | some blob =>
      { url := url, type := "remote-proxy", downloadUrl := createObjectURL blob
        proxiedUrl := some (proxyUrl ++ encode url), error := none }
    | none => tryProxies fetch createObjectURL encode url (some "proxy failed") rest

/-- `handleRemoteUrl` (conten.css L869-924): first a direct fetch of the URL;
on success a `remote-direct` descriptor; on any failure, when
`config.useCorsProxy` is set, the proxy chain is tried in order; otherwise
(or when every proxy also fails) the `remote-fallback` descriptor carrying
the original URL is returned.  The function is total: no branch throws. -/
def handleRemoteUrl (fetch : String → Option Blob)
    (createObjectURL : Blob → String) (encode : String → String)
    (useCorsProxy : Bool) (proxies : List String) (url : String) : Descriptor :=
  match fetch url with
  | some blob =>
    { url := url, type := "remote-direct", downloadUrl := createObjectURL blob
      proxiedUrl := none, error := none }
  | none =>
    if useCorsProxy then
      tryProxies fetch createObjectURL encode url (some "direct fetch failed") proxies
    else
      { url := url, type := "remote-fallback", downloadUrl := url
        proxiedUrl := none, error := some "direct fetch failed" }

/-! ## Order properties of the sorting relations -/

instance : IsTotal QItem sortRel :=
  ⟨by intro a b; simp only [sortRel]; omega⟩

instance : IsTrans QItem sortRel :=
  ⟨by intro a b c; simp only [sortRel]; omega⟩

instance : IsTotal QItem prioRel :=
  ⟨by intro a b; simp only [prioRel]; omega⟩

instance : IsTrans QItem prioRel :=
  ⟨by intro a b c; simp only [prioRel]; omega⟩

/-! ## C9: addToQueue is atomic on failure -/

/-- C9: `addToQueue` is atomic on failure — whenever it throws (unknown queue
id, or appending would exceed `maxQueueSize`), the queue list (hence the
target queue's item list, progress counters and statistics) is returned
exactly as it was: both throws in the source occur before any mutation, so
no partial append of the submitted items can be observed. -/
theorem c9_addToQueue_atomic_on_error (maxQueueSize now : Nat)
    (queues : List Queue) (qid : String) (items : List NewItem) (e : String)
    (h : (addToQueue maxQueueSize now queues qid items).2 = .error e) :
    (addToQueue maxQueueSize now queues qid items).1 = queues := by
  unfold addToQueue at h ⊢
  cases hf : queues.find? (fun q => q.id == qid) with
  | none => simp [hf]
  | some q =>
    simp only [hf] at h ⊢
    split at h
    · split
      · rfl
      · simp_all
    · simp at h

/-- Witness for C9: a one-item append into a queue whose `maxQueueSize` is 0
throws and leaves the queue list untouched. -/
theorem c9_addToQueue_atomic_on_error_witness :
    (addToQueue 0 0 [runningQueue] "q" [⟨none, none⟩]).2 =
      .error "Queue size limit exceeded" ∧
    (addToQueue 0 0 [runningQueue] "q" [⟨none, none⟩]).1 = [runningQueue] :=
  ⟨by decide,
   c9_addToQueue_atomic_on_error 0 0 [runningQueue] "q" [⟨none, none⟩]
     "Queue size limit exceeded" (by decide)⟩

/-! ## C1: priority ordering -/

/-- C1: (1) after any successful `addToQueue` call the target queue's item
list is sorted by priority descending, FIFO (ascending `addedAt`) among equal
priorities; (2) within the pending-item selection of `processQueue`, an item
with strictly higher priority is selected for execution strictly earlier than
one with lower priority; (3) for a queue given items of priorities
`[1, 5, 3]` in that order, with slots for all three, the execution start
order of priorities is `5, 3, 1`. -/
theorem c1_priority_ordering :
    (∀ (maxQueueSize now : Nat) (queues : List Queue) (qid : String)
        (items : List NewItem) (ids : List String) (q' : Queue),
        (addToQueue maxQueueSize now queues qid items).2 = .ok ids →
        q' ∈ (addToQueue maxQueueSize now queues qid items).1 →
        q'.id = qid →
        q'.items.Pairwise sortRel) ∧
    (∀ (q : Queue) (slots : Nat)
        (i j : Fin (pendingSelection q slots).length),
        ((pendingSelection q slots).get j).priority <
          ((pendingSelection q slots).get i).priority →
        (i : Nat) < (j : Nat)) ∧
    (∀ (q : Queue) (slots : Nat) (a : QItem),
        (q.items.filter (fun it => it.status == "pending")).length ≤ slots →
        a ∈ q.items → a.status = "pending" →
        a ∈ pendingSelection q slots) ∧
    ((addToQueue 1000 17 [runningQueue] "q"
        [⟨some 1, none⟩, ⟨some 5, none⟩, ⟨some 3, none⟩]).1.head?.map
      (fun q => (pendingSelection q 3).map (fun it => it.priority))
      = some [5, 3, 1]) := by
  refine ⟨?_, ?_, ?_, by decide⟩
  · intro maxQueueSize now queues qid items ids q' hok hmem hid
    unfold addToQueue at hok hmem
    cases hf : queues.find? (fun q => q.id == qid) with
    | none => simp [hf] at hok
    | some q =>
      simp only [hf] at hok hmem
      by_cases hsz : q.items.length
          + (mkQueueItems qid now q.defaultPriority items).length > maxQueueSize
      · rw [if_pos hsz] at hok
        exact Except.noConfusion hok
      · rw [if_neg hsz] at hmem
        simp only [List.mem_map] at hmem
        obtain ⟨r, _, hr⟩ := hmem
        by_cases hbeq : r.id == qid
        · simp only [hbeq, if_true] at hr
          subst hr
          exact List.sorted_insertionSort sortRel _
        · simp only [hbeq] at hr
          subst hr
          exact absurd hid (by simpa using hbeq)
  · intro q slots i j hlt
    have hs : (pendingSelection q slots).Pairwise prioRel :=
      List.Pairwise.sublist (List.take_sublist slots _)
        (List.sorted_insertionSort prioRel _)
    rcases lt_trichotomy (i : Nat) (j : Nat) with h | h | h
    · exact h
    · have hij : i = j := Fin.ext h
      rw [hij] at hlt
      exact absurd hlt (lt_irrefl _)
    · have hp := List.pairwise_iff_get.mp hs j i (by omega)
      exact absurd hlt (by simp only [prioRel] at hp; omega)
  · intro q slots a hlen ha hstat
    unfold pendingSelection
    rw [List.take_of_length_le (by
      rw [List.length_insertionSort]
      exact hlen)]
    exact (List.mem_insertionSort prioRel).mpr
      (List.mem_filter.mpr ⟨ha, by simp [hstat]⟩)

/-- Witness for C1: the `[1,5,3]` queue is concretely sorted, its priority-5
item is concretely selected when three slots are free, and the concrete
execution start order of priorities is `5, 3, 1`. -/
theorem c1_priority_ordering_witness :
    (((addToQueue 1000 17 [runningQueue] "q"
        [⟨some 1, none⟩, ⟨some 5, none⟩, ⟨some 3, none⟩]).1.headD
          runningQueue).items.Pairwise sortRel) ∧
    (⟨"q_item_17_1", "q", "pending", 5, 0, 17, none, 0⟩ : QItem) ∈
      pendingSelection ((addToQueue 1000 17 [runningQueue] "q"
        [⟨some 1, none⟩, ⟨some 5, none⟩, ⟨some 3, none⟩]).1.headD
          runningQueue) 3 ∧
    ((addToQueue 1000 17 [runningQueue] "q"
        [⟨some 1, none⟩, ⟨some 5, none⟩, ⟨some 3, none⟩]).1.head?.map
      (fun q => (pendingSelection q 3).map (fun it => it.priority))
      = some [5, 3, 1]) :=
  ⟨c1_priority_ordering.1 1000 17 [runningQueue] "q"
      [⟨some 1, none⟩, ⟨some 5, none⟩, ⟨some 3, none⟩]
      ["q_item_17_0", "q_item_17_1", "q_item_17_2"] _ (by decide) (by decide)
      (by decide),
   c1_priority_ordering.2.2.1 _ 3 ⟨"q_item_17_1", "q", "pending", 5, 0, 17, none, 0⟩
      (by decide) (by decide) (by decide),
   c1_priority_ordering.2.2.2⟩

/-! ## C2: retry cap -/

/-- C2 counterexample: with `retryAttempts = 2` and every execution attempt
failing, the item undergoes exactly **1** retry attempt and **2** failures in
total — not the 2 retries / 3 failures the claim states.  The guard in
`handleDownloadError` is `attempts < retryAttempts` where `attempts` counts
executions, so `retryAttempts` bounds the *total number of executions*, not
the number of retries. -/
theorem c2_retry_cap_counterexample :
    (failingRun 2 freshItem).failures = 2 ∧
    (failingRun 2 freshItem).retries = 1 ∧
    (failingRun 2 freshItem).item.status = "failed" ∧
    ¬ ((failingRun 2 freshItem).failures = 3 ∧
       (failingRun 2 freshItem).retries = 2) := by
  decide

/-- Behaviour of the always-failing run, by induction on the fuel: starting
below the cap, the item ends `failed` with `attempts = retryAttempts`, after
`retryAttempts - attempts₀` failures and one fewer retries. -/
theorem failingRunAux_spec (fuel : Nat) :
    ∀ (retryAttempts : Nat) (it : QItem) (failures retries : Nat),
      it.attempts < retryAttempts → retryAttempts - it.attempts ≤ fuel →
      failingRunAux retryAttempts fuel it failures retries =
        ⟨{ it with
            status := "failed"
            error := some "download failed"
            attempts := retryAttempts },
          failures + (retryAttempts - it.attempts),
          retries + (retryAttempts - it.attempts - 1)⟩ := by
  induction fuel with
  | zero =>
    intro r it f rt h1 h2
    omega
  | succ fuel ih =>
    intro r it f rt h1 h2
    obtain ⟨iid, iqid, istatus, iprio, iatt, iadd, ierr, isize⟩ := it
    simp only at h1 h2
    simp only [failingRunAux, retryFire]
    by_cases hlt : iatt + 1 < r
    · rw [if_pos hlt, if_pos (show ("running" == "running") = true by decide)]
      rw [ih r ⟨iid, iqid, "pending", iprio, iatt + 1, iadd, none, isize⟩
        (f + 1) (rt + 1) (by simpa using hlt) (by simp only; omega)]
      simp only [FailRunResult.mk.injEq, QItem.mk.injEq, eq_self_iff_true,
        true_and, and_true]
      omega
    · rw [if_neg hlt]
      simp only [FailRunResult.mk.injEq, QItem.mk.injEq, eq_self_iff_true,
        true_and, and_true]
      omega

/-- C2, amended: for any `retryAttempts ≥ 1`, an item created fresh
(`attempts = 0`) that fails on every execution undergoes exactly
`retryAttempts` executions — i.e. `retryAttempts - 1` retries and
`retryAttempts` failures, each failure incrementing the queue's failed count —
then stays terminally `failed`: its attempt counter equals the cap, so the
`attempts < retryAttempts` retry guard can never fire again.  In particular
`retryAttempts = 2` gives exactly 1 retry attempt and 2 total failures. -/
theorem c2_retry_cap_amended (retryAttempts : Nat) (it : QItem)
    (hr : 1 ≤ retryAttempts) (h0 : it.attempts = 0) :
    (failingRun retryAttempts it).failures = retryAttempts ∧
    (failingRun retryAttempts it).retries = retryAttempts - 1 ∧
    (failingRun retryAttempts it).item.status = "failed" ∧
    (failingRun retryAttempts it).item.attempts = retryAttempts ∧
    ¬ ((failingRun retryAttempts it).item.attempts < retryAttempts) := by
  have h := failingRunAux_spec (retryAttempts + 1) retryAttempts it 0 0
    (by omega) (by omega)
  unfold failingRun
  rw [h]
  refine ⟨?_, ?_, rfl, rfl, ?_⟩
  · show 0 + (retryAttempts - it.attempts) = retryAttempts
    omega
  · show 0 + (retryAttempts - it.attempts - 1) = retryAttempts - 1
    omega
  · show ¬ (retryAttempts < retryAttempts)
    omega

/-- Witness for C2 (amended): `retryAttempts = 2` from a fresh item gives 2
failures, 1 retry, terminal `failed` at the cap. -/
theorem c2_retry_cap_amended_witness :
    (failingRun 2 freshItem).failures = 2 ∧
    (failingRun 2 freshItem).retries = 2 - 1 ∧
    (failingRun 2 freshItem).item.status = "failed" ∧
    (failingRun 2 freshItem).item.attempts = 2 ∧
    ¬ ((failingRun 2 freshItem).item.attempts < 2) :=
  c2_retry_cap_amended 2 freshItem (by decide) (by decide)

/-! ## C3: multi-reason pause/resume -/

/-- C3 (code bug): the failing scenario run through the embedded event
handlers.  A queue paused for reason `network` while going offline, then
hidden (`pauseAllQueues('visibility')` skips it because it is already in
`pausedQueues`, leaving `pauseReason = 'network'` — the single overwritten
reason field records only one reason), then shown again: the reason-less
`resumeAllQueues` resumes it to `running` although the network pausing
reason still holds (`online = false`).  The claim — that a queue never
resumes while at least one pausing reason still holds — is exactly what the
source violates here, while the spec explicitly calls the multi-reason
semantics a correctness requirement and flags the source's overwritten
single `pauseReason` field as a latent bug. -/
theorem c3_multi_reason_resume_bug :
    multiReasonScenario.online = false ∧
    multiReasonScenario.queues.map (fun q => q.status) = ["running"] ∧
    multiReasonScenario.pausedQueues = [] ∧
    ((handleVisibilityChange (handleNetworkChange
        { queues := [runningQueue], pausedQueues := [], autoResume := true,
          online := true } false) true).queues.map (fun q => q.pauseReason)
      = [some "network"]) := by
  decide

/-! ## C4: exponential backoff -/

/-- C4: for a failing item below the retry cap (`attempts ≥ 1` at
`handleDownloadError` time), the scheduled retry delay is
`retryDelay * 2^(attempts-1)`; successive delays for the same item are
non-decreasing in the attempt counter; and when the delay fires on a queue
that is still `running`, the item's status is reset to `pending`. -/
theorem c4_backoff_growth (retryDelay a₁ a₂ : Nat)
    (h1 : 1 ≤ a₁) (h2 : a₁ ≤ a₂) :
    scheduleRetryDelay retryDelay a₁ = retryDelay * 2 ^ (a₁ - 1) ∧
    scheduleRetryDelay retryDelay a₁ ≤ scheduleRetryDelay retryDelay a₂ ∧
    ∀ it : QItem, (retryFire "running" it).status = "pending" := by
  refine ⟨rfl, ?_, fun it => rfl⟩
  exact Nat.mul_le_mul_left retryDelay
    (Nat.pow_le_pow_right (by norm_num) (by omega))

/-- Witness for C4 at `retryDelay = 1000`, attempts 1 then 2. -/
theorem c4_backoff_growth_witness :
    scheduleRetryDelay 1000 1 = 1000 * 2 ^ (1 - 1) ∧
    scheduleRetryDelay 1000 1 ≤ scheduleRetryDelay 1000 2 ∧
    (retryFire "running" freshItem).status = "pending" :=
  ⟨(c4_backoff_growth 1000 1 2 (by decide) (by decide)).1,
   (c4_backoff_growth 1000 1 2 (by decide) (by decide)).2.1,
   (c4_backoff_growth 1000 1 2 (by decide) (by decide)).2.2 freshItem⟩

/-! ## C5: persistence round trip -/

/-- C5: a snapshot written by `persistQueues` and reloaded by
`loadPersistedQueues` (simulating restart) maps every queue — regardless of
the status it was saved with — to the same queue with status forced to
`paused`, empty `activeDownloads`, and every `downloading` item reset to
`pending`; consequently every restored queue is `paused` and contains no
`downloading` item. -/
theorem c5_persistence_roundtrip (qs : List Queue) :
    persistenceRoundTrip qs = qs.map (fun q =>
      { q with
        activeDownloads := []
        status := "paused"
        items := q.items.map (fun it =>
          if it.status == "downloading" then { it with status := "pending" }
          else it) }) ∧
    ∀ q ∈ persistenceRoundTrip qs, q.status = "paused" ∧
      ∀ it ∈ q.items, it.status ≠ "downloading" := by
  constructor
  · simp only [persistenceRoundTrip, loadPersistedQueues, persistQueues,
      List.map_map]
    rfl
  · intro q hq
    simp only [persistenceRoundTrip, loadPersistedQueues, persistQueues,
      List.map_map, List.mem_map] at hq
    obtain ⟨q₀, _, hq₀⟩ := hq
    subst hq₀
    refine ⟨rfl, ?_⟩
    intro it hit
    simp only [Function.comp, restoreQueue, List.mem_map] at hit
    obtain ⟨it₀, _, hit₀⟩ := hit
    subst hit₀
    by_cases hd : it₀.status == "downloading"
    · simp [hd]
    · rw [if_neg hd]
      simpa using hd

/-- A queue mid-download, used to witness the persistence round trip. -/
def downloadingQueue : Queue :=
  { runningQueue with
    items := [{ freshItem with status := "downloading" }]
    activeDownloads := [freshItem.id] }

/-- The expected result of restoring `downloadingQueue`. -/
def restoredQueue : Queue :=
  { downloadingQueue with
    activeDownloads := []
    status := "paused"
    items := [{ freshItem with status := "pending" }] }

/-- Witness for C5: round-tripping a running queue holding one `downloading`
item yields the same queue `paused` with the item back to `pending`. -/
theorem c5_persistence_roundtrip_witness :
    persistenceRoundTrip [downloadingQueue] = [downloadingQueue].map (fun q =>
      { q with
        activeDownloads := []
        status := "paused"
        items := q.items.map (fun it =>
          if it.status == "downloading" then { it with status := "pending" }
          else it) }) ∧
    restoredQueue.status = "paused" ∧
    ({ freshItem with status := "pending" } : QItem).status ≠ "downloading" :=
  ⟨(c5_persistence_roundtrip [downloadingQueue]).1,
   ((c5_persistence_roundtrip [downloadingQueue]).2 restoredQueue
     (by decide)).1,
   ((c5_persistence_roundtrip [downloadingQueue]).2 restoredQueue
     (by decide)).2 { freshItem with status := "pending" } (by decide)⟩

/-! ## Decimal-numeral facts used by the dedup-key analysis -/

/-- `natStrAux` computes the decimal digit characters, most significant
first, as soon as the fuel covers the input. -/
theorem natStrAux_eq (fuel : Nat) :
    ∀ n : Nat, n ≤ fuel →
      natStrAux fuel n = (Nat.digits 10 n).reverse.map digitChar := by
  induction fuel with
  | zero =>
    intro n hn
    have h0 : n = 0 := by omega
    subst h0
    simp [natStrAux]
  | succ fuel ih =>
    intro n hn
    by_cases h0 : n = 0
    · subst h0
      simp [natStrAux]
    · have hpos : 0 < n := Nat.pos_of_ne_zero h0
      rw [show natStrAux (fuel + 1) n
          = natStrAux fuel (n / 10) ++ [digitChar (n % 10)] from if_neg h0]
      rw [ih (n / 10) (by
        have := Nat.div_lt_self hpos (by norm_num : 1 < 10)
        omega)]
      rw [Nat.digits_def' (by norm_num : (1:Nat) < 10) hpos]
      simp

/-- `digitChar` is injective on decimal digits. -/
theorem digitChar_injOn :
    ∀ d₁ < 10, ∀ d₂ < 10, digitChar d₁ = digitChar d₂ → d₁ = d₂ := by
  decide

/-- No decimal digit maps to the dimension separator `x`. -/
theorem digitChar_ne_x : ∀ d < 10, digitChar d ≠ 'x' := by
  decide

/-- Two digit lists below 10 with the same character rendering are equal. -/
theorem map_digitChar_inj :
    ∀ l₁ l₂ : List Nat, (∀ d ∈ l₁, d < 10) → (∀ d ∈ l₂, d < 10) →
      l₁.map digitChar = l₂.map digitChar → l₁ = l₂ := by
  intro l₁
  induction l₁ with
  | nil =>
    intro l₂ _ _ h
    cases l₂ with
    | nil => rfl
    | cons b t => simp at h
  | cons a t ih =>
    intro l₂ hb₁ hb₂ h
    cases l₂ with
    | nil => simp at h
    | cons b t₂ =>
      simp only [List.map_cons, List.cons.injEq] at h
      have ha : a = b := digitChar_injOn a (hb₁ a (by simp)) b
        (hb₂ b (by simp)) h.1
      have ht : t = t₂ := ih t₂ (fun d hd => hb₁ d (by simp [hd]))
        (fun d hd => hb₂ d (by simp [hd])) h.2
      rw [ha, ht]

/-- The decimal numeral function is injective. -/
theorem natStr_inj {m n : Nat} (h : natStr m = natStr n) : m = n := by
  unfold natStr at h
  by_cases hm : m = 0 <;> by_cases hn : n = 0
  · omega
  · exfalso
    rw [if_pos hm, if_neg hn] at h
    have hd : "0".data = natStrAux n n := congrArg String.data h
    rw [natStrAux_eq n n le_rfl] at hd
    cases hrev : (Nat.digits 10 n).reverse with
    | nil => rw [hrev] at hd; simp at hd
    | cons d rest =>
      rw [hrev] at hd
      simp only [List.map_cons] at hd
      have h1 : digitChar d = '0' ∧ List.map digitChar rest = [] := by
        have : ('0' :: [] : List Char) = digitChar d :: List.map digitChar rest := hd
        exact ⟨(List.cons.injEq _ _ _ _ |>.mp this.symm).1,
               (List.cons.injEq _ _ _ _ |>.mp this.symm).2⟩
      have hrest : rest = [] := List.map_eq_nil_iff.mp h1.2
      have hdmem : d ∈ Nat.digits 10 n := by
        have : d ∈ (Nat.digits 10 n).reverse := by rw [hrev]; simp
        simpa using this
      have hdlt : d < 10 := Nat.digits_lt_base (by norm_num) hdmem
      have hd0 : d = 0 := digitChar_injOn d hdlt 0 (by norm_num) (by
        rw [h1.1]; rfl)
      have hdig : Nat.digits 10 n = [0] := by
        have : (Nat.digits 10 n).reverse = [0] := by rw [hrev, hrest, hd0]
        have h2 := congrArg List.reverse this
        simpa using h2
      have := congrArg (Nat.ofDigits 10) hdig
      rw [Nat.ofDigits_digits] at this
      simp [Nat.ofDigits] at this
      exact hn this
  · exfalso
    rw [if_neg hm, if_pos hn] at h
    have hd : natStrAux m m = "0".data := congrArg String.data h
    rw [natStrAux_eq m m le_rfl] at hd
    cases hrev : (Nat.digits 10 m).reverse with
    | nil => rw [hrev] at hd; simp at hd
    | cons d rest =>
      rw [hrev] at hd
      simp only [List.map_cons] at hd
      have h1 : digitChar d = '0' ∧ List.map digitChar rest = [] := by
        have : digitChar d :: List.map digitChar rest = ('0' :: [] : List Char) := hd
        exact ⟨(List.cons.injEq _ _ _ _ |>.mp this).1,
               (List.cons.injEq _ _ _ _ |>.mp this).2⟩
      have hrest : rest = [] := List.map_eq_nil_iff.mp h1.2
      have hdmem : d ∈ Nat.digits 10 m := by
        have : d ∈ (Nat.digits 10 m).reverse := by rw [hrev]; simp
        simpa using this
      have hdlt : d < 10 := Nat.digits_lt_base (by norm_num) hdmem
      have hd0 : d = 0 := digitChar_injOn d hdlt 0 (by norm_num) (by
        rw [h1.1]; rfl)
      have hdig : Nat.digits 10 m = [0] := by
        have : (Nat.digits 10 m).reverse = [0] := by rw [hrev, hrest, hd0]
        have h2 := congrArg List.reverse this
        simpa using h2
      have := congrArg (Nat.ofDigits 10) hdig
      rw [Nat.ofDigits_digits] at this
      simp [Nat.ofDigits] at this
      exact hm this
  · rw [if_neg hm, if_neg hn] at h
    have hd : natStrAux m m = natStrAux n n := congrArg String.data h
    rw [natStrAux_eq m m le_rfl, natStrAux_eq n n le_rfl] at hd
    have hdig := map_digitChar_inj _ _
      (fun d hdm => Nat.digits_lt_base (by norm_num)
        (List.mem_reverse.mp hdm))
      (fun d hdm => Nat.digits_lt_base (by norm_num)
        (List.mem_reverse.mp hdm)) hd
    have hrev : Nat.digits 10 m = Nat.digits 10 n :=
      List.reverse_injective hdig
    have := congrArg (Nat.ofDigits 10) hrev
    rwa [Nat.ofDigits_digits, Nat.ofDigits_digits] at this

/-- The character `x` never occurs in a decimal numeral. -/
theorem x_not_mem_natStr (n : Nat) : 'x' ∉ (natStr n).data := by
  unfold natStr
  by_cases h0 : n = 0
  · rw [if_pos h0]
    decide
  · rw [if_neg h0]
    intro hmem
    have hd : 'x' ∈ (Nat.digits 10 n).reverse.map digitChar := by
      rwa [natStrAux_eq n n le_rfl] at hmem
    simp only [List.mem_map] at hd
    obtain ⟨d, hdm, hdc⟩ := hd
    exact digitChar_ne_x d
      (Nat.digits_lt_base (by norm_num) (List.mem_reverse.mp hdm)) hdc

/-- Splitting an append at an element that occurs in neither prefix: the
prefixes and the suffixes coincide. -/
theorem append_cons_inj {α : Type} (c : α) :
    ∀ l₁ l₂ r₁ r₂ : List α, c ∉ l₁ → c ∉ l₂ →
      l₁ ++ c :: r₁ = l₂ ++ c :: r₂ → l₁ = l₂ ∧ r₁ = r₂ := by
  intro l₁
  induction l₁ with
  | nil =>
    intro l₂ r₁ r₂ _ hc₂ h
    cases l₂ with
    | nil =>
      simp only [List.nil_append, List.cons.injEq] at h
      exact ⟨rfl, h.2⟩
    | cons b t =>
      simp only [List.nil_append, List.cons_append, List.cons.injEq] at h
      exact absurd (h.1 ▸ List.mem_cons_self b t) hc₂
  | cons a t ih =>
    intro l₂ r₁ r₂ hc₁ hc₂ h
    cases l₂ with
    | nil =>
      simp only [List.cons_append, List.nil_append, List.cons.injEq] at h
      exact absurd (h.1.symm ▸ List.mem_cons_self a t) hc₁
    | cons b t₂ =>
      simp only [List.cons_append, List.cons.injEq] at h
      have hrec := ih t₂ r₁ r₂ (fun hm => hc₁ (List.mem_cons_of_mem a hm))
        (fun hm => hc₂ (List.mem_cons_of_mem b hm)) h.2
      exact ⟨by rw [h.1, hrec.1], hrec.2⟩

/-! ## Dedup behaviour of removeDuplicateImages -/

/-- Every image surviving `removeDupAux` has a key outside `seen`. -/
theorem removeDupAux_not_seen :
    ∀ (l : List ScanImage) (seen : List String) (x : ScanImage),
      x ∈ removeDupAux seen l → generateImageKey x ∉ seen := by
  intro l
  induction l with
  | nil => intro seen x hx; simp [removeDupAux] at hx
  | cons img rest ih =>
    intro seen x hx
    unfold removeDupAux at hx
    by_cases hk : generateImageKey img ∈ seen
    · rw [if_pos hk] at hx
      exact ih seen x hx
    · rw [if_neg hk] at hx
      cases hx with
      | head => exact hk
      | tail _ hx =>
        have := ih _ x hx
        intro hmem
        exact this (List.mem_cons_of_mem _ hmem)

/-- The output of `removeDupAux` carries pairwise distinct dedup keys. -/
theorem removeDupAux_pairwise :
    ∀ (l : List ScanImage) (seen : List String),
      (removeDupAux seen l).Pairwise
        (fun a b => generateImageKey a ≠ generateImageKey b) := by
  intro l
  induction l with
  | nil => intro seen; simp [removeDupAux]
  | cons img rest ih =>
    intro seen
    unfold removeDupAux
    by_cases hk : generateImageKey img ∈ seen
    · rw [if_pos hk]
      exact ih seen
    · rw [if_neg hk]
      refine List.Pairwise.cons ?_ (ih _)
      intro b hb hkey
      have := removeDupAux_not_seen rest _ b hb
      exact this (by rw [← hkey]; exact List.mem_cons_self _ _)

/-- Every input image is represented in the output: some survivor carries its
key. -/
theorem removeDupAux_covers :
    ∀ (l : List ScanImage) (seen : List String) (a : ScanImage),
      a ∈ l → generateImageKey a ∉ seen →
      ∃ b ∈ removeDupAux seen l, generateImageKey b = generateImageKey a := by
  intro l
  induction l with
  | nil => intro seen a ha; simp at ha
  | cons img rest ih =>
    intro seen a ha hseen
    unfold removeDupAux
    cases ha with
    | head =>
      rw [if_neg hseen]
      exact ⟨img, List.mem_cons_self _ _, rfl⟩
    | tail _ ha =>
      by_cases hk : generateImageKey img ∈ seen
      · rw [if_pos hk]
        exact ih seen a ha hseen
      · rw [if_neg hk]
        by_cases heq : generateImageKey a = generateImageKey img
        · exact ⟨img, List.mem_cons_self _ _, heq.symm⟩
        · obtain ⟨b, hb, hbk⟩ := ih (generateImageKey img :: seen) a ha
            (by
              intro hmem
              rcases List.mem_cons.mp hmem with h | h
              · exact heq h
              · exact hseen h)
          exact ⟨b, List.mem_cons_of_mem _ hb, hbk⟩

/-- Same normalized URL and same reported dimensions give the same dedup
key. -/
theorem generateImageKey_eq_of (a b : ScanImage)
    (hu : normalizeKeyUrl a.url = normalizeKeyUrl b.url)
    (hw : a.width = b.width) (hh : a.height = b.height) :
    generateImageKey a = generateImageKey b := by
  unfold generateImageKey
  rw [hu, hw, hh]

/-- Same URL but different reported dimensions give different dedup keys:
the key decomposes uniquely at the `x` separator because decimal numerals
never contain `x`, and decimal numerals are injective. -/
theorem generateImageKey_ne_of_dims (a b : ScanImage) (hu : a.url = b.url)
    (hwh : a.width ≠ b.width ∨ a.height ≠ b.height) :
    generateImageKey a ≠ generateImageKey b := by
  intro h
  unfold generateImageKey at h
  rw [hu] at h
  have hd := congrArg String.data h
  simp only [String.data_append, List.append_assoc] at hd
  have hd1 := List.append_cancel_left hd
  have hd2 := List.append_cancel_left hd1
  simp only [List.singleton_append] at hd2
  obtain ⟨hw, hh⟩ := append_cons_inj 'x' _ _ _ _
    (x_not_mem_natStr a.width) (x_not_mem_natStr b.width) hd2
  have hww : a.width = b.width := natStr_inj (String.ext hw)
  have hhh : a.height = b.height := natStr_inj (String.ext hh)
  rcases hwh with h' | h' <;> exact h' (by assumption)

/-- C6: deduplication of scan candidates.  (1) any two candidates with the
same normalized URL and the same reported dimensions have the same dedup key;
(2) the deduplicated scan result carries pairwise distinct keys — so of any
two candidates with identical key, only one remains; (3) every discovered
candidate is still represented by exactly one survivor with its key; and
(4) two candidates with the same URL but different reported dimensions have
different keys, so both are kept as distinct results. -/
theorem c6_dedup_invariant :
    (∀ a b : ScanImage, normalizeKeyUrl a.url = normalizeKeyUrl b.url →
      a.width = b.width → a.height = b.height →
      generateImageKey a = generateImageKey b) ∧
    (∀ images : List ScanImage, (removeDuplicateImages images).Pairwise
      (fun a b => generateImageKey a ≠ generateImageKey b)) ∧
    (∀ (images : List ScanImage) (a : ScanImage), a ∈ images →
      ∃ b ∈ removeDuplicateImages images,
        generateImageKey b = generateImageKey a) ∧
    (∀ a b : ScanImage, a.url = b.url →
      (a.width ≠ b.width ∨ a.height ≠ b.height) →
      generateImageKey a ≠ generateImageKey b) :=
  ⟨generateImageKey_eq_of,
   fun images => removeDupAux_pairwise images [],
   fun images a ha => removeDupAux_covers images [] a ha (by simp),
   generateImageKey_ne_of_dims⟩

/-- Witness for C6 on a concrete candidate list: two copies of the same
URL+size collapse to one; the same URL at a different reported size stays. -/
theorem c6_dedup_invariant_witness :
    generateImageKey ⟨"http://h/a.png?s=1", 100, 200, none, 0⟩
      = generateImageKey ⟨"http://h/a.png?s=2", 100, 200, none, 0⟩ ∧
    (removeDuplicateImages
      [⟨"http://h/a.png", 100, 200, none, 0⟩,
       ⟨"http://h/a.png", 100, 200, none, 0⟩,
       ⟨"http://h/a.png", 100, 300, none, 0⟩]).Pairwise
      (fun a b => generateImageKey a ≠ generateImageKey b) ∧
    (∃ b ∈ removeDuplicateImages
      [⟨"http://h/a.png", 100, 200, none, 0⟩,
       ⟨"http://h/a.png", 100, 200, none, 0⟩,
       ⟨"http://h/a.png", 100, 300, none, 0⟩],
      generateImageKey b
        = generateImageKey ⟨"http://h/a.png", 100, 300, none, 0⟩) ∧
    generateImageKey ⟨"http://h/a.png", 100, 200, none, 0⟩
      ≠ generateImageKey ⟨"http://h/a.png", 100, 300, none, 0⟩ :=
  ⟨c6_dedup_invariant.1 _ _ (by decide) (by decide) (by decide),
   c6_dedup_invariant.2.1 _,
   c6_dedup_invariant.2.2.1 _ _ (by decide),
   c6_dedup_invariant.2.2.2 _ _ (by decide) (Or.inr (by decide))⟩

/-! ## C7: inclusive minimum-dimension filter -/

/-- C7: with `minWidth = 200`, `minHeight = 200` the minimum-dimension filter
is an inclusive boundary: a 150x300 candidate is rejected no matter what the
remaining checks would say (its width fails `width < minWidth`), and an
exactly-200x200 candidate passes `passesFilters` whenever the file-type
check, the URL-validity check and the duplicate check pass. -/
theorem c7_min_dimension_inclusive :
    (∀ (determine : String → String) (isValidImageUrl : String → Bool)
        (ft : FileTypes) (scanned : List String) (img : ScanImage),
        img.width = 150 → img.height = 300 →
        (passesFilters determine isValidImageUrl ⟨ft, 200, 200⟩ scanned img).1
          = false) ∧
    (∀ (determine : String → String) (isValidImageUrl : String → Bool)
        (ft : FileTypes) (scanned : List String) (img : ScanImage),
        img.width = 200 → img.height = 200 →
        passesFileTypeFilter determine ft img = true →
        isValidImageUrl img.url = true →
        generateImageKey img ∉ scanned →
        (passesFilters determine isValidImageUrl ⟨ft, 200, 200⟩ scanned img).1
          = true) := by
  constructor
  · intro det valid ft scanned img hw _
    unfold passesFilters
    by_cases hft : passesFileTypeFilter det ft img = true
    · rw [if_neg (by simp [hft]), if_pos (Or.inl (by rw [hw]; norm_num))]
    · rw [if_pos (by simp [hft])]
  · intro det valid ft scanned img hw hh hft hvalid hdup
    unfold passesFilters
    rw [if_neg (by simp [hft]),
        if_neg (by rw [hw, hh]; simp),
        if_neg (by simp [hvalid]),
        if_neg hdup]

/-- The allow-everything file-type settings. -/
def allFileTypes : FileTypes := ⟨true, true, true, true, true, true⟩

/-- Witness for C7: a concrete 150x300 PNG is excluded and a concrete
200x200 PNG is included under `minWidth = minHeight = 200`. -/
theorem c7_min_dimension_inclusive_witness :
    (passesFilters (fun _ => "png") (fun _ => true) ⟨allFileTypes, 200, 200⟩
      [] ⟨"http://h/a.png", 150, 300, some "png", 0⟩).1 = false ∧
    (passesFilters (fun _ => "png") (fun _ => true) ⟨allFileTypes, 200, 200⟩
      [] ⟨"http://h/b.png", 200, 200, some "png", 0⟩).1 = true :=
  ⟨c7_min_dimension_inclusive.1 (fun _ => "png") (fun _ => true) allFileTypes
      [] ⟨"http://h/a.png", 150, 300, some "png", 0⟩ rfl rfl,
   c7_min_dimension_inclusive.2 (fun _ => "png") (fun _ => true) allFileTypes
      [] ⟨"http://h/b.png", 200, 200, some "png", 0⟩ rfl rfl (by decide)
      rfl (by decide)⟩

/-! ## C10: strict canvas/video extraction bounds -/

/-- C10: canvas and video-frame extraction use a strict (exclusive) size
boundary, unlike the inclusive `passesFilters` boundary of C7: every emitted
candidate has width strictly greater than `minWidth` and height strictly
greater than `minHeight`; in particular an element whose width or height
exactly equals the configured minimum is never emitted. -/
theorem c10_strict_extraction_bounds :
    (∀ (s : ScanSettings) (canvases : List CanvasEl),
        ∀ img ∈ extractCanvasImages s canvases,
          s.minWidth < img.width ∧ s.minHeight < img.height) ∧
    (∀ (s : ScanSettings) (videos : List VideoEl),
        ∀ img ∈ extractVideoFrames s videos,
          s.minWidth < img.width ∧ s.minHeight < img.height) ∧
    (∀ (s : ScanSettings) (canvases : List CanvasEl),
        ∀ img ∈ extractCanvasImages s canvases,
          img.width ≠ s.minWidth ∧ img.height ≠ s.minHeight) ∧
    (∀ (s : ScanSettings) (videos : List VideoEl),
        ∀ img ∈ extractVideoFrames s videos,
          img.width ≠ s.minWidth ∧ img.height ≠ s.minHeight) := by
  have hc : ∀ (s : ScanSettings) (canvases : List CanvasEl),
      ∀ img ∈ extractCanvasImages s canvases,
        s.minWidth < img.width ∧ s.minHeight < img.height := by
    intro s cs img hmem
    unfold extractCanvasImages at hmem
    by_cases hb : s.fileTypes.blob = true
    · rw [if_neg (by simp [hb])] at hmem
      simp only [List.mem_map, List.mem_filter] at hmem
      obtain ⟨c, ⟨_, hcond⟩, himg⟩ := hmem
      subst himg
      exact of_decide_eq_true hcond
    · rw [if_pos (by simp [hb])] at hmem
      simp at hmem
  have hv : ∀ (s : ScanSettings) (videos : List VideoEl),
      ∀ img ∈ extractVideoFrames s videos,
        s.minWidth < img.width ∧ s.minHeight < img.height := by
    intro s vs img hmem
    unfold extractVideoFrames at hmem
    simp only [List.mem_map, List.mem_filter] at hmem
    obtain ⟨v, ⟨_, hcond⟩, himg⟩ := hmem
    subst himg
    exact of_decide_eq_true hcond
  refine ⟨hc, hv, ?_, ?_⟩
  · intro s cs img hmem
    have h := hc s cs img hmem
    exact ⟨by omega, by omega⟩
  · intro s vs img hmem
    have h := hv s vs img hmem
    exact ⟨by omega, by omega⟩

/-- Witness for C10: with `minWidth = minHeight = 200`, a 201x300 canvas is
emitted (and its dimensions are strictly above the minimums), while a 200x300
canvas and a 300x200 video — each exactly at a minimum on one axis — are not
emitted at all. -/
theorem c10_strict_extraction_bounds_witness :
    (200 < (⟨"data:c", 201, 300, some "canvas",
        estimateCanvasSize 201 300⟩ : ScanImage).width ∧
     200 < (⟨"data:c", 201, 300, some "canvas",
        estimateCanvasSize 201 300⟩ : ScanImage).height) ∧
    extractCanvasImages ⟨allFileTypes, 200, 200⟩ [⟨200, 300, "data:c"⟩] = [] ∧
    extractVideoFrames ⟨allFileTypes, 200, 200⟩ [⟨300, 200, "data:v"⟩] = [] := by
  refine ⟨?_, by decide, by decide⟩
  have h := c10_strict_extraction_bounds.1 ⟨allFileTypes, 200, 200⟩
    [⟨201, 300, "data:c"⟩]
    ⟨"data:c", 201, 300, some "canvas", estimateCanvasSize 201 300⟩ (by decide)
  exact h

/-! ## C8: CORS proxy fallback chain -/

/-- The proxy loop returns the first successful proxy, in list order. -/
theorem tryProxies_first_success (fetch : String → Option Blob)
    (co : Blob → String) (en : String → String) (url : String) (b : Blob) :
    ∀ (ps₁ : List String) (p : String) (ps₂ : List String)
      (lastError : Option String),
      (∀ q ∈ ps₁, fetch (q ++ en url) = none) →
      fetch (p ++ en url) = some b →
      tryProxies fetch co en url lastError (ps₁ ++ p :: ps₂) =
        { url := url, type := "remote-proxy", downloadUrl := co b,
          proxiedUrl := some (p ++ en url), error := none } := by
  intro ps₁
  induction ps₁ with
  | nil =>
    intro p ps₂ le _ hp
    simp only [List.nil_append]
    unfold tryProxies
    rw [hp]
  | cons q qs ih =>
    intro p ps₂ le hfail hp
    simp only [List.cons_append]
    unfold tryProxies
    rw [hfail q (List.mem_cons_self _ _)]
    exact ih p ps₂ _ (fun r hr => hfail r (List.mem_cons_of_mem _ hr)) hp

/-- When every proxy fails, the loop falls through to the `remote-fallback`
descriptor carrying the original URL. -/
theorem tryProxies_all_fail (fetch : String → Option Blob)
    (co : Blob → String) (en : String → String) (url : String) :
    ∀ (ps : List String) (lastError : Option String),
      (∀ q ∈ ps, fetch (q ++ en url) = none) →
      (tryProxies fetch co en url lastError ps).type = "remote-fallback" ∧
      (tryProxies fetch co en url lastError ps).downloadUrl = url := by
  intro ps
  induction ps with
  | nil => intro le _; exact ⟨rfl, rfl⟩
  | cons q qs ih =>
    intro le hfail
    unfold tryProxies
    rw [hfail q (List.mem_cons_self _ _)]
    exact ih _ (fun r hr => hfail r (List.mem_cons_of_mem _ hr))

/-- C8: remote-URL resolution.  (1) The direct fetch is attempted first: when
it succeeds the result is the `remote-direct` descriptor for its blob.
(2) When the direct fetch fails (for any reason — network error, CORS
rejection, timeout are all `none` outcomes of the fetch oracle) and proxying
is enabled, the configured proxy endpoints are tried strictly in list order
and the first success wins.  (3) When the direct fetch and every proxy fail,
no error is thrown — `handleRemoteUrl` is a total function — and the result
is the `remote-fallback` descriptor whose `downloadUrl` is the original URL,
for the caller to attempt a direct browser-level download. -/
theorem c8_cors_proxy_fallback :
    (∀ (fetch : String → Option Blob) (co : Blob → String)
        (en : String → String) (proxies : List String) (url : String)
        (b : Blob),
        fetch url = some b →
        handleRemoteUrl fetch co en true proxies url =
          { url := url, type := "remote-direct", downloadUrl := co b,
            proxiedUrl := none, error := none }) ∧
    (∀ (fetch : String → Option Blob) (co : Blob → String)
        (en : String → String) (ps₁ : List String) (p : String)
        (ps₂ : List String) (url : String) (b : Blob),
        fetch url = none →
        (∀ q ∈ ps₁, fetch (q ++ en url) = none) →
        fetch (p ++ en url) = some b →
        handleRemoteUrl fetch co en true (ps₁ ++ p :: ps₂) url =
          { url := url, type := "remote-proxy", downloadUrl := co b,
            proxiedUrl := some (p ++ en url), error := none }) ∧
    (∀ (fetch : String → Option Blob) (co : Blob → String)
        (en : String → String) (proxies : List String) (url : String),
        fetch url = none →
        (∀ q ∈ proxies, fetch (q ++ en url) = none) →
        (handleRemoteUrl fetch co en true proxies url).type
            = "remote-fallback" ∧
        (handleRemoteUrl fetch co en true proxies url).downloadUrl = url) := by
  refine ⟨?_, ?_, ?_⟩
  · intro fetch co en proxies url b h
    unfold handleRemoteUrl
    rw [h]
  · intro fetch co en ps₁ p ps₂ url b hdir hfail hp
    unfold handleRemoteUrl
    rw [hdir, if_pos rfl]
    exact tryProxies_first_success fetch co en url b ps₁ p ps₂ _ hfail hp
  · intro fetch co en proxies url hdir hfail
    unfold handleRemoteUrl
    rw [hdir, if_pos rfl]
    exact tryProxies_all_fail fetch co en url proxies _ hfail

/-- Witness for C8 with a concrete fetch oracle: the direct fetch of `u`
fails, proxy `p1/` fails, proxy `p2/` succeeds — and with an
everything-fails oracle the fallback descriptor carries the original URL. -/
theorem c8_cors_proxy_fallback_witness :
    (handleRemoteUrl
        (fun s => if s = "direct" then some ⟨"image/png", 7⟩ else none)
        (fun _ => "blob:d") (fun s => s) true ["p1/", "p2/"] "direct" =
      { url := "direct", type := "remote-direct", downloadUrl := "blob:d",
        proxiedUrl := none, error := none }) ∧
    (handleRemoteUrl
        (fun s => if s = "p2/u" then some ⟨"image/png", 7⟩ else none)
        (fun _ => "blob:p") (fun s => s) true ["p1/", "p2/"] "u" =
      { url := "u", type := "remote-proxy", downloadUrl := "blob:p",
        proxiedUrl := some "p2/u", error := none }) ∧
    ((handleRemoteUrl (fun _ => none) (fun _ => "blob:n") (fun s => s) true
        corsProxyUrls "u").type = "remote-fallback" ∧
     (handleRemoteUrl (fun _ => none) (fun _ => "blob:n") (fun s => s) true
        corsProxyUrls "u").downloadUrl = "u") :=
  ⟨c8_cors_proxy_fallback.1
      (fun s => if s = "direct" then some ⟨"image/png", 7⟩ else none)
      (fun _ => "blob:d") (fun s => s) ["p1/", "p2/"] "direct"
      ⟨"image/png", 7⟩ (by decide),
   by
    have h := c8_cors_proxy_fallback.2.1
      (fun s => if s = "p2/u" then some ⟨"image/png", 7⟩ else none)
      (fun _ => "blob:p") (fun s => s) ["p1/"] "p2/" [] "u"
      ⟨"image/png", 7⟩ (by decide) (by decide) (by decide)
    simpa using h,
   c8_cors_proxy_fallback.2.2 (fun _ => none) (fun _ => "blob:n")
      (fun s => s) corsProxyUrls "u" rfl (by decide)⟩

end Spec2Proof
